import Mathlib

/-!
Verification of the drawing-guides scraping server (`src/main.py`).

The development shallowly embeds the Python program: HTML documents, as
produced by the `BeautifulSoup` parser, are modelled as a tree of element
and text nodes; the soup-query API used by the program (`find`, `find_all`,
`select_one`, `get_text`, attribute access, tag truthiness) is embedded as
total functions on those trees; the network is an oracle
`Fetch : String → Except String HttpResponse` (an `Except.error` is a
`requests.RequestException` raised by `make_request`, an `Except.ok` is a
response that passed `raise_for_status`); every handler additionally
returns the number of HTTP requests it performed, so that "no network
call" is expressible.

Python semantics embedded deliberately:
* `bs4` tag truthiness: `Tag.__len__` is the number of children, so an
  element with no children is falsy (this drives `x or y` chains and
  `if tag:` tests in the source);
* `str`/`None` truthiness at the argument-validation boundary;
* `list.sort(key=…, reverse=True)` is a stable sort, embedded as a stable
  insertion sort descending on the (boolean) key;
* `urllib.parse.urljoin` and `urllib.parse.quote` are embedded directly.
-/

/-! ## HTML document model -/

mutual
inductive Node where
  | text : String → Node
  | elem : String → List (String × String) → NodeList → Node
inductive NodeList where
  | nil : NodeList
  | cons : Node → NodeList → NodeList
end

/-- Build a `NodeList` from a `List Node` (fixture convenience). -/
def nodes : List Node → NodeList
  | [] => NodeList.nil
  | n :: ns => NodeList.cons n (nodes ns)

/-- Python `str.strip()`: leading and trailing whitespace removed. -/
def pyStrip (s : String) : String :=
  String.mk (((s.data.dropWhile Char.isWhitespace).reverse.dropWhile Char.isWhitespace).reverse)

/-- Python `str.lower()` (restricted to the ASCII case folding). -/
def pyLower (s : String) : String := String.mk (s.data.map Char.toLower)

def splitWsAux : List Char → List Char → List String
  | [], acc => [String.mk acc.reverse]
  | c :: cs, acc =>
    if c.isWhitespace then String.mk acc.reverse :: splitWsAux cs []
    else splitWsAux cs (c :: acc)

/-- Split at whitespace characters (consecutive separators yield empty
segments, as Python's `str.split` on a parsed `class` attribute list). -/
def splitWs (s : String) : List String := splitWsAux s.data []

def tagOf : Node → String
  | Node.text _ => ""
  | Node.elem t _ _ => t

/-- Attribute lookup, `tag.get(key)`. -/
def attr : Node → String → Option String
  | Node.text _, _ => none
  | Node.elem _ attrs _, k => (attrs.find? (fun p => p.1 == k)).map Prod.snd

/-- The whitespace-separated tokens of the `class` attribute (bs4 stores
`class` as a multi-valued attribute). -/
def classes (n : Node) : List String :=
  match attr n "class" with
  | none => []
  | some v => (splitWs v).filter (fun s => s != "")

def hasClass (c : String) (n : Node) : Bool := (classes n).contains c

def isTag (name : String) : Node → Bool
  | Node.elem t _ _ => t == name
  | _ => false

def isElemNode : Node → Bool
  | Node.elem _ _ _ => true
  | _ => false

/-- Python truthiness of a bs4 node: a `NavigableString` is truthy iff
non-empty, a `Tag` is truthy iff it has at least one child
(`Tag.__len__` is `len(self.contents)`). -/
def truthy : Node → Bool
  | Node.text s => s != ""
  | Node.elem _ _ NodeList.nil => false
  | Node.elem _ _ (NodeList.cons _ _) => true

/-- Truthiness of the result of a bs4 `find`: `None` is falsy. -/
def optTruthy : Option Node → Bool
  | none => false
  | some n => truthy n

/-- Python `x or y` on `find` results. -/
def pyOr (a b : Option Node) : Option Node := if optTruthy a then a else b

mutual
/-- All nodes of the subtree rooted at a node satisfying `p`, the node
itself included, in document (preorder) order. -/
def findAllN (p : Node → Bool) : Node → List Node
  | Node.text s => if p (Node.text s) then [Node.text s] else []
  | Node.elem t a cs =>
      (if p (Node.elem t a cs) then [Node.elem t a cs] else []) ++ findAllL p cs
/-- All nodes of a forest satisfying `p`, in document (preorder) order;
`soup.find_all` run from the document root. -/
def findAllL (p : Node → Bool) : NodeList → List Node
  | NodeList.nil => []
  | NodeList.cons n ns => findAllN p n ++ findAllL p ns
end

/-- `soup.find`: first match in the document, in document order. -/
def findL (p : Node → Bool) (doc : NodeList) : Option Node := (findAllL p doc).head?

/-- `tag.find_all`: matches among the strict descendants of a node. -/
def descFindAll (p : Node → Bool) : Node → List Node
  | Node.text _ => []
  | Node.elem _ _ cs => findAllL p cs

/-- `tag.find`: first match among the strict descendants of a node. -/
def descFind (p : Node → Bool) (n : Node) : Option Node := (descFindAll p n).head?

mutual
/-- The text segments (`tag.strings`) of a subtree, in document order. -/
def stringsN : Node → List String
  | Node.text s => [s]
  | Node.elem _ _ cs => stringsL cs
def stringsL : NodeList → List String
  | NodeList.nil => []
  | NodeList.cons n ns => stringsN n ++ stringsL ns
end

/-- `tag.get_text(separator=sep, strip=strip)`: with `strip`, each text
segment is stripped and empty segments are dropped before joining. -/
def getText (sep : String) (strip : Bool) (n : Node) : String :=
  let segs := stringsN n
  let segs := if strip then (segs.map pyStrip).filter (fun s => s != "") else segs
  String.intercalate sep segs

mutual
/-- Remove (`decompose`) every descendant element whose tag is in `names`. -/
def stripTagsN (names : List String) : Node → Node
  | Node.text s => Node.text s
  | Node.elem t a cs => Node.elem t a (stripTagsL names cs)
def stripTagsL (names : List String) : NodeList → NodeList
  | NodeList.nil => NodeList.nil
  | NodeList.cons (Node.text s) ns => NodeList.cons (Node.text s) (stripTagsL names ns)
  | NodeList.cons (Node.elem t a cs) ns =>
      if names.contains t then stripTagsL names ns
      else NodeList.cons (Node.elem t a (stripTagsL names cs)) (stripTagsL names ns)
end

/-! ## String utilities (Python `in`, `urljoin`, `quote`) -/

/-- Python `needle in hay` on lists. -/
def containsL [BEq α] (needle : List α) : List α → Bool
  | [] => needle.isEmpty
  | c :: cs => needle.isPrefixOf (c :: cs) || containsL needle cs

/-- Python substring test `needle in hay`. -/
def strContains (hay needle : String) : Bool := containsL needle.data hay.data

/-- Python falsiness of an optional string argument: `None` or `""`. -/
def strFalsy : Option String → Bool
  | none => true
  | some s => s == ""

/-- A character allowed in a URL scheme (RFC 3986). -/
def isSchemeChar (c : Char) : Bool :=
  c.isAlpha || c.isDigit || c == '+' || c == '-' || c == '.'

/-- A well-formed scheme name: non-empty, starts with a letter, all
scheme characters. -/
def schemeOk (p : List Char) : Bool :=
  !p.isEmpty && (p.headD 'x').isAlpha && p.all isSchemeChar

/-- The string starts with `scheme:` for a well-formed scheme name, i.e.
it is an absolute URL (or at least a URL reference carrying a scheme). -/
def hasSchemeL (s : List Char) : Bool :=
  schemeOk (s.takeWhile (fun c => c != ':')) &&
    !(s.dropWhile (fun c => c != ':')).isEmpty

def hasScheme (s : String) : Bool := hasSchemeL s.data

/-- The `//authority` part at the front of `r` (the part of a URL after
`scheme:`), empty if there is none. -/
def netlocOf (r : List Char) : List Char :=
  if r.take 2 = ['/', '/'] then
    '/' :: '/' :: (r.drop 2).takeWhile (fun c => c != '/')
  else []

/-- The directory part of a path: everything up to and including the last
slash; `/` when the path has no slash. -/
def dirOf (path : List Char) : List Char :=
  let d := (path.reverse.dropWhile (fun c => c != '/')).reverse
  if d.isEmpty then ['/'] else d

/-- Resolve a scheme-less reference `url` against a base split into
scheme name `sc` and remainder `r`: protocol-relative, absolute-path and
relative-path references keep the base's scheme (and, for paths, its
authority and directory). -/
def resolveRel (sc r url : List Char) : List Char :=
  if url.take 2 = ['/', '/'] then sc ++ ':' :: url
  else if url.take 1 = ['/'] then sc ++ ':' :: (netlocOf r ++ url)
  else sc ++ ':' :: (netlocOf r ++ dirOf (r.drop (netlocOf r).length) ++ url)

/-- `urllib.parse.urljoin` for the cases exercised by an `http(s)` base:
an empty reference yields the base, a reference with a scheme stands
alone, anything else is resolved against the base's scheme, authority and
directory. -/
def urljoinL (base url : List Char) : List Char :=
  if url.isEmpty then base
  else if hasSchemeL url then url
  else if hasSchemeL base then
    resolveRel (base.takeWhile (fun c => c != ':'))
      ((base.dropWhile (fun c => c != ':')).drop 1) url
  else url

def urljoin (base url : String) : String := String.mk (urljoinL base.data url.data)

def hexDigit (n : Nat) : Char := if n < 10 then Char.ofNat (48 + n) else Char.ofNat (55 + n)

/-- UTF-8 bytes of a character. -/
def utf8Bytes (c : Char) : List Nat :=
  let n := c.toNat
  if n < 0x80 then [n]
  else if n < 0x800 then [0xC0 + n / 0x40, 0x80 + n % 0x40]
  else if n < 0x10000 then [0xE0 + n / 0x1000, 0x80 + (n / 0x40) % 0x40, 0x80 + n % 0x40]
  else [0xF0 + n / 0x40000, 0x80 + (n / 0x1000) % 0x40, 0x80 + (n / 0x40) % 0x40, 0x80 + n % 0x40]

/-- A character `urllib.parse.quote` leaves unencoded (default `safe='/'`). -/
def quoteSafe (c : Char) : Bool :=
  c.isAlpha || c.isDigit || c == '_' || c == '.' || c == '-' || c == '~' || c == '/'

/-- `urllib.parse.quote`. -/
def pctQuote (s : String) : String :=
  String.mk (s.data.flatMap (fun c =>
    if quoteSafe c then [c]
    else (utf8Bytes c).flatMap (fun b => ['%', hexDigit (b / 16), hexDigit (b % 16)])))

/-! ## Data model and network oracle -/

structure HttpResponse where
  status : Nat
  body : NodeList

/-- The network: `Except.error` is a `requests.RequestException` raised by
`make_request`, `Except.ok` a response that passed `raise_for_status`. -/
def Fetch : Type := String → Except String HttpResponse

structure GuideSummary where
  title : String
  url : String
  source : String
deriving Repr, DecidableEq

structure ImageRef where
  src : String
  alt : String
deriving Repr, DecidableEq

structure GuideDetail where
  title : String
  url : String
  content : String
  steps : List String
  images : List ImageRef
  source : String
deriving Repr, DecidableEq

/-- A raised `ValueError`. -/
inductive PyErr where
  | valueError : String → PyErr
deriving Repr, DecidableEq

deriving instance DecidableEq for Except

/-- The tool-call argument bag; an absent key reads as `none`
(`arguments.get`). -/
structure ToolArgs where
  query : Option String := none
  limit : Option Nat := none
  source : Option String := none
  url : Option String := none

/-- `EASY_DRAWING_GUIDES_BASE`. -/
def EDG_BASE : String := "https://easydrawingguides.com"

/-! ## Search collector (`search_easy_drawing_guides`) -/

def searchUrlFor (query : String) : String := EDG_BASE ++ "/?s=" ++ pctQuote query

/-- The candidate containers of the search page: `article` elements of
class `post`, else every `h2` element. -/
def articleCandidates (doc : NodeList) : List Node :=
  let a := findAllL (fun n => isTag "article" n && hasClass "post" n) doc
  if a.isEmpty then findAllL (isTag "h2") doc else a

/-- Title text and raw href of one candidate container, `none` when the
candidate is skipped: `title_elem = article.find('h2') or article.find('a')`,
`link_elem = title_elem.find('a') if title_elem.name != 'a' else title_elem`,
accepted only when `title_elem`, `link_elem` and `link_elem.get('href')`
are all truthy. -/
def extractCandidate (article : Node) : Option (String × String) :=
  match pyOr (descFind (isTag "h2") article) (descFind (isTag "a") article) with
  | none => none
  | some te =>
    if truthy te then
      let linkElem := if tagOf te != "a" then descFind (isTag "a") te else some te
      match linkElem with
      | none => none
      | some le =>
        if truthy le then
          match attr le "href" with
          | none => none
          | some href =>
            if href != "" then some (getText "" true le, href) else none
        else none
    else none

/-- The body of the candidate loop of `search_easy_drawing_guides` for
one candidate: resolve the href against the base, validate it with a
second fetch requiring status 200, skip the candidate when its validation
fetch raises. Also counts the validation fetch when performed. -/
def candResult (fetch : Fetch) (article : Node) : List GuideSummary × Nat :=
  match extractCandidate article with
  | none => ([], 0)
  | some (title, href) =>
    let url := urljoin EDG_BASE href
    match fetch url with
    | Except.ok v =>
        (if v.status == 200 then
          [{ title := title, url := url, source := "Easy Drawing Guides" }]
        else [], 1)
    | Except.error _ => ([], 1)

/-- The candidate loop of `search_easy_drawing_guides`, appending each
accepted candidate in order. -/
def searchLoop (fetch : Fetch) : List Node → List GuideSummary × Nat
  | [] => ([], 0)
  | article :: rest =>
    let here := candResult fetch article
    let rec2 := searchLoop fetch rest
    (here.1 ++ rec2.1, here.2 + rec2.2)

/-- `search_easy_drawing_guides(query, limit)`: fetch the search page,
iterate over the first `limit` candidates, return the validated summaries
(and the number of fetches performed). A failed search-page fetch is
caught by the surrounding `except` and yields `[]`. -/
def searchEDG (fetch : Fetch) (query : String) (limit : Nat) : List GuideSummary × Nat :=
  match fetch (searchUrlFor query) with
  | Except.error _ => ([], 1)
  | Except.ok resp =>
    let r := searchLoop fetch ((articleCandidates resp.body).take limit)
    (r.1, 1 + r.2)

/-! ## Extractor (`get_drawing_guide_content`) -/

/-- Title extraction: `soup.find('h1') or soup.find('title')`, then
`title.get_text(strip=True) if title else "Unknown Title"`. -/
def titleOf (doc : NodeList) : String :=
  match pyOr (findL (isTag "h1") doc) (findL (isTag "title") doc) with
  | some el => if truthy el then getText "" true el else "Unknown Title"
  | none => "Unknown Title"

/-- The ordered `content_selectors` list, each a tag with an optional
required class. -/
def contentSelectors : List (String × Option String) :=
  [("div", some "entry-content"), ("article", none), ("div", some "content"),
   ("main", none), ("div", some "post-content")]

def selMatch : String × Option String → Node → Bool
  | (t, none), n => isTag t n
  | (t, some c), n => isTag t n && hasClass c n

/-- `soup.select_one(selector)`: first match in document order. -/
def selectOne (sel : String × Option String) (doc : NodeList) : Option Node :=
  (findAllL (selMatch sel) doc).head?

/-- The selector loop of the extractor: probe each selector in order and
stop at the first probe whose result is truthy (`if content_elem:`). -/
def probeContent (doc : NodeList) : List (String × Option String) → Option Node
  | [] => none
  | sel :: rest =>
    if optTruthy (selectOne sel doc) then selectOne sel doc else probeContent doc rest

/-- Body-content extraction: on the element found by the selector loop,
decompose `script`/`style` descendants, then
`get_text(separator='\n', strip=True)`; empty string when the loop finds
nothing. -/
def contentOf (doc : NodeList) : String :=
  match probeContent doc contentSelectors with
  | some el => getText "\n" true (stripTagsN ["script", "style"] el)
  | none => ""

def isListTag (n : Node) : Bool := isTag "ol" n || isTag "ul" n

/-- `class_=re.compile(r'step', re.I)`: some class token contains `step`
case-insensitively. -/
def classStepMatch (n : Node) : Bool :=
  (classes n).any (fun c => strContains (pyLower c) "step")

/-- `soup.find_all(['ol','ul']) or soup.find_all('div', class_=…step…)`. -/
def stepSources (doc : NodeList) : List Node :=
  let lists := findAllL isListTag doc
  if lists.isEmpty then findAllL (fun n => isTag "div" n && classStepMatch n) doc
  else lists

/-- One candidate step text, kept only if truthy and longer than 10
characters. -/
def stepItemText (el : Node) : Option String :=
  let t := getText "" true el
  if t != "" && decide (10 < t.length) then some t else none

/-- The inner loop over an `ol`/`ul` element: each `li` descendant's
text, filtered by `stepItemText`. -/
def stepListItems (el : Node) : List String :=
  (descFindAll (isTag "li") el).filterMap stepItemText

/-- Step extraction: for `ol`/`ul` elements take each `li` descendant's
text, otherwise the element's whole text, filtered by `stepItemText`. -/
def stepsOf (doc : NodeList) : List String :=
  (stepSources doc).flatMap (fun el =>
    if isListTag el then stepListItems el
    else
      match stepItemText el with
      | some t => [t]
      | none => [])

/-- Image extraction: every `img` with a truthy `src`, the `src` resolved
against the page URL, `alt` defaulted to the empty string, truncated to
the first 5. -/
def imagesOf (pageUrl : String) (doc : NodeList) : List ImageRef :=
  ((findAllL (isTag "img") doc).filterMap (fun im =>
    match attr im "src" with
    | none => none
    | some src =>
      if src != "" then
        some { src := urljoin pageUrl src, alt := (attr im "alt").getD "" }
      else none)).take 5

/-- `get_drawing_guide_content(url)`: on a fetch failure the exception is
caught and a degraded `GuideDetail` is returned. Also counts the fetches
performed (always exactly one). -/
def getContent (fetch : Fetch) (url : String) : GuideDetail × Nat :=
  match fetch url with
  | Except.error e =>
    ({ title := "Error", url := url,
       content := "Failed to extract content: " ++ e,
       steps := [], images := [], source := "Unknown" }, 1)
  | Except.ok resp =>
    ({ title := titleOf resp.body, url := url,
       content := contentOf resp.body,
       steps := stepsOf resp.body,
       images := imagesOf url resp.body,
       source := "Easy Drawing Guides" }, 1)

/-! ## Relevance sort (`handle_search`) -/

/-- Insert into a descending-by-key stable order: `x` goes before the
first element whose key is not above `x`'s. -/
def insertDesc (key : α → Bool) (x : α) : List α → List α
  | [] => [x]
  | y :: ys => if key x || !key y then x :: y :: ys else y :: insertDesc key x ys

/-- `list.sort(key=…, reverse=True)`: a stable sort putting `true`-keyed
elements first, embedded as a stable insertion sort. -/
def pySortDesc (key : α → Bool) : List α → List α
  | [] => []
  | x :: xs => insertDesc key x (pySortDesc key xs)

/-- `query_lower in x['title'].lower()`. -/
def matchesQuery (q : String) (g : GuideSummary) : Bool :=
  strContains (pyLower g.title) (pyLower q)

/-- The relevance sort of `handle_search`. -/
def rankGuides (q : String) (gs : List GuideSummary) : List GuideSummary :=
  pySortDesc (matchesQuery q) gs

/-! ## Response formatting and dispatch -/

/-- 1-based enumeration, Python `enumerate(l, 1)`. -/
def enum1 : Nat → List α → List (Nat × α)
  | _, [] => []
  | i, a :: as => (i, a) :: enum1 (i + 1) as

def searchMetaBlock (query : String) (count : Nat) (source : String) : String :=
  "# Search Metadata\n\n**Query:** " ++ query ++ "\n**Results Count:** " ++
    toString count ++ "\n**Sources:** " ++ source ++
    "\n**Sites Searched:** Easy Drawing Guides"

def searchResultsBlock (gs : List GuideSummary) : String :=
  "# Drawing Guide Search Results\n\n" ++
    String.join ((enum1 1 gs).map (fun p =>
      "## " ++ toString p.1 ++ ". " ++ p.2.title ++ "\n**Source:** " ++ p.2.source ++
        "\n**URL:** " ++ p.2.url ++ "\n\n"))

def searchEmptyBlock (query : String) (source : String) : String :=
  "# Search Results\n\n**Query:** " ++ query ++ "\n**Results Count:** 0\n**Sources:** " ++
    source ++ "\n**Error:** No drawing guides found for your query. " ++
    "Try different keywords like 'animal', 'cartoon', 'flower', or 'character'."

/-- `handle_search`: falsy `query` raises before any fetch; otherwise
collect, sort by relevance, truncate to `limit` and format. -/
def handleSearch (fetch : Fetch) (args : ToolArgs) : Except PyErr (List String) × Nat :=
  let limit := args.limit.getD 10
  let source := args.source.getD "both"
  if strFalsy args.query then
    (Except.error (PyErr.valueError "Query parameter is required"), 0)
  else
    let query := args.query.getD ""
    let r := searchEDG fetch query limit
    let allGuides := (rankGuides query r.1).take limit
    if allGuides.isEmpty then
      (Except.ok [searchEmptyBlock query source], r.2)
    else
      (Except.ok [searchMetaBlock query allGuides.length source,
                  searchResultsBlock allGuides], r.2)

def guideMetaBlock (g : GuideDetail) : String :=
  "# Guide Metadata\n\n**Title:** " ++ g.title ++ "\n**Source:** " ++ g.source ++
    "\n**URL:** " ++ g.url ++ "\n**Content Length:** " ++ toString g.content.length ++
    " characters\n**Steps Found:** " ++ toString g.steps.length ++
    "\n**Images Found:** " ++ toString g.images.length

def guideContentBlock (g : GuideDetail) : String :=
  "# Drawing Guide Content\n\n" ++ g.content

def guideStepsBlock (steps : List String) : String :=
  "# Step-by-Step Instructions\n\n" ++
    String.join ((enum1 1 steps).map (fun p =>
      "**Step " ++ toString p.1 ++ ":** " ++ p.2 ++ "\n\n"))

def guideImagesBlock (images : List ImageRef) : String :=
  "# Reference Images\n\n" ++
    String.join ((enum1 1 images).map (fun p =>
      "**Image " ++ toString p.1 ++ ":** " ++ p.2.src ++ "\n" ++
        (if p.2.alt != "" then "**Alt Text:** " ++ p.2.alt ++ "\n" else "") ++ "\n"))

/-- `handle_get_guide`: falsy `url` or a `url` not containing the base URL
substring raises before any fetch; otherwise extract and format. -/
def handleGetGuide (fetch : Fetch) (args : ToolArgs) : Except PyErr (List String) × Nat :=
  if strFalsy args.url then
    (Except.error (PyErr.valueError "URL parameter is required"), 0)
  else
    let url := args.url.getD ""
    if !(strContains url EDG_BASE) then
      (Except.error (PyErr.valueError "URL must be from easydrawingguides.com"), 0)
    else
      let r := getContent fetch url
      let g := r.1
      (Except.ok
        ([guideMetaBlock g] ++
          (if g.content != "" then [guideContentBlock g] else []) ++
          (if !g.steps.isEmpty then [guideStepsBlock g.steps] else []) ++
          (if !g.images.isEmpty then [guideImagesBlock g.images] else [])), r.2)

def categoriesBlocks : List String :=
  ["# Drawing Categories\n\n**Total Sources:** 1\n**Last Updated:** " ++
     "Available categories from supported sites",
   "# Available Drawing Categories\n\n## Easy Drawing Guides\n\n" ++
     String.join (["Animals", "People", "Plants", "Cartoons", "Objects", "Anime",
       "Video Games", "Flowers", "Comics"].map (fun c => "- " ++ c ++ "\n")) ++
     "\n## Popular Search Terms\n\n" ++
     "- Animals (cat, dog, lion, elephant, etc.)\n" ++
     "- Cartoon Characters (Mickey Mouse, Pikachu, etc.)\n" ++
     "- Anime Characters (Naruto, Goku, etc.)\n" ++
     "- Flowers (rose, tulip, sunflower, etc.)\n" ++
     "- Objects (house, car, tree, etc.)\n" ++
     "- People (face, body, girl, boy, etc.)\n"]

/-- `handle_call_tool`: route an operation name to its handler; an unknown
name raises. -/
def dispatch (fetch : Fetch) (name : String) (args : ToolArgs) :
    Except PyErr (List String) × Nat :=
  if name == "search" then handleSearch fetch args
  else if name == "get_guide" then handleGetGuide fetch args
  else if name == "list_categories" then (Except.ok categoriesBlocks, 0)
  else (Except.error (PyErr.valueError ("Unknown tool: " ++ name)), 0)

/-! ## Spec-side definitions

Definitions in this section follow the wording of the specification (not
the code); they exist to be compared against the code-derived definitions
above. -/

/-- Spec wording of the body-text probe: the first selector, in order,
whose probe yields a non-empty match (an element with content). -/
def specFirstContentProbe (doc : NodeList) : Option Node :=
  (contentSelectors.filterMap (fun sel =>
    match selectOne sel doc with
    | some el => if truthy el then some el else none
    | none => none)).head?

/-- Spec wording of claim C5's fallback tier: with no list elements
present, EVERY element (of any tag) whose class name matches the `step`
pattern contributes its whole trimmed text, under the same length
filter. -/
def specStepsClaim (doc : NodeList) : List String :=
  let lists := findAllL isListTag doc
  if lists.isEmpty then
    (findAllL (fun n => isElemNode n && classStepMatch n) doc).filterMap stepItemText
  else lists.flatMap stepListItems

/-- Claim C5 amended: the fallback tier only scans `div` elements. -/
def specStepsDiv (doc : NodeList) : List String :=
  let lists := findAllL isListTag doc
  if lists.isEmpty then
    (findAllL (fun n => isTag "div" n && classStepMatch n) doc).filterMap stepItemText
  else lists.flatMap stepListItems

/-- Spec wording of claim C6: every image element that HAS a `src`
attribute (presence, regardless of value), resolved and alt-defaulted,
truncated to the first 5. -/
def specImagesClaim (pageUrl : String) (doc : NodeList) : List ImageRef :=
  ((findAllL (isTag "img") doc).filterMap (fun im =>
    match attr im "src" with
    | none => none
    | some src =>
      some { src := urljoin pageUrl src, alt := (attr im "alt").getD "" })).take 5

/-- Claim C6 amended: the first five image elements in document order
whose `src` attribute is present and non-empty, resolved against the page
URL, alt text defaulted to the empty string. -/
def specImagesAmended (pageUrl : String) (doc : NodeList) : List ImageRef :=
  (((findAllL (isTag "img") doc).filter (fun im => ((attr im "src").getD "") != "")).map
    (fun im =>
      { src := urljoin pageUrl ((attr im "src").getD ""),
        alt := (attr im "alt").getD "" })).take 5

/-- Spec wording of claim C9: the trimmed text of the first `h1` when one
exists, otherwise the trimmed document title when one exists, otherwise
the literal. -/
def specTitleClaim (doc : NodeList) : String :=
  match findL (isTag "h1") doc with
  | some h => getText "" true h
  | none =>
    match findL (isTag "title") doc with
    | some t => getText "" true t
    | none => "Unknown Title"

/-- The document-title tier of the amended claim C9. -/
def specTitleFallback (doc : NodeList) : String :=
  match findL (isTag "title") doc with
  | some t => if truthy t then getText "" true t else "Unknown Title"
  | none => "Unknown Title"

/-- Claim C9 amended: an element with no children does not count — the
cascade is first `h1` if non-empty, else document title if non-empty,
else the literal. -/
def specTitleAmended (doc : NodeList) : String :=
  match findL (isTag "h1") doc with
  | some h => if truthy h then getText "" true h else specTitleFallback doc
  | none => specTitleFallback doc

/-! ## Fixtures -/

/-- A search-result candidate: `article.post > h2 > a[href] > text`. -/
def mkArticle (title url : String) : Node :=
  Node.elem "article" [("class", "post")] (nodes
    [Node.elem "h2" [] (nodes
      [Node.elem "a" [("href", url)] (nodes [Node.text title])])])

def catTitles : List String := ["Cat One", "Cat Two", "Cat Three", "Cat Four", "Cat Five"]

def catUrls : List String :=
  ["https://easydrawingguides.com/cat-1", "https://easydrawingguides.com/cat-2",
   "https://easydrawingguides.com/cat-3", "https://easydrawingguides.com/cat-4",
   "https://easydrawingguides.com/cat-5"]

/-- A fixture search page with five candidate links. -/
def catPage : NodeList := nodes ((catTitles.zip catUrls).map (fun p => mkArticle p.1 p.2))

def catSummaries : List GuideSummary :=
  (catTitles.zip catUrls).map (fun p => { title := p.1, url := p.2, source := "Easy Drawing Guides" })

/-- An oracle serving the five-candidate search page, where validation of
the single URL `bad` fails (raises) and every other URL validates with
status 200. -/
def fetchCatBad (bad : String) : Fetch := fun u =>
  if u == searchUrlFor "cat" then Except.ok ⟨200, catPage⟩
  else if u == bad then Except.error "404 Client Error"
  else Except.ok ⟨200, nodes []⟩

/-- A search page whose single candidate link contains only an image, so
its title text is empty while the link is truthy and validates. -/
def imgLinkPage : NodeList := nodes
  [Node.elem "article" [("class", "post")] (nodes
    [Node.elem "h2" [] (nodes
      [Node.elem "a" [("href", "https://easydrawingguides.com/pic")] (nodes
        [Node.elem "img" [("src", "pic.png")] (nodes [])])])])]

def fetchImgLink : Fetch := fun u =>
  if u == searchUrlFor "cat" then Except.ok ⟨200, imgLinkPage⟩
  else Except.ok ⟨200, nodes []⟩

/-- An always-failing network. -/
def fetchDown : Fetch := fun _ => Except.error "connection refused"

/-- No list elements, and a long step text inside a `section` (not a
`div`) whose class matches the `step` pattern. -/
def docSectionSteps : NodeList :=
  nodes [Node.elem "section" [("class", "steps")] (nodes
    [Node.text "Follow these twelve steps"])]

/-- A single image whose `src` attribute is present but empty. -/
def docEmptySrc : NodeList := nodes [Node.elem "img" [("src", "")] (nodes [])]

/-- A single image with an absolute `src` and an alt text. -/
def docOneImg : NodeList :=
  nodes [Node.elem "img" [("src", "https://easydrawingguides.com/i.png"), ("alt", "a cat")]
    (nodes [])]

/-- An empty (childless) `h1` followed by a non-empty document title. -/
def docEmptyH1 : NodeList :=
  nodes [Node.elem "h1" [] (nodes []),
    Node.elem "title" [] (nodes [Node.text "Doc Title"])]

/-- A page with none of the probed body selectors. -/
def docNoSelectors : NodeList :=
  nodes [Node.elem "p" [] (nodes [Node.text "just a paragraph"])]

/-! ## Helper lemmas -/

theorem takeWhileAppend {α} (p : α → Bool) (l r : List α) (h : ∀ a ∈ l, p a = true) :
    (l ++ r).takeWhile p = l ++ r.takeWhile p := by
  induction l with
  | nil => simp
  | cons a l ih =>
    have ha : p a = true := h a (List.mem_cons_self a l)
    simp only [List.cons_append, List.takeWhile_cons, ha, if_true]
    rw [ih (fun b hb => h b (List.mem_cons_of_mem a hb))]

theorem dropWhileAppend {α} (p : α → Bool) (l r : List α) (h : ∀ a ∈ l, p a = true) :
    (l ++ r).dropWhile p = r.dropWhile p := by
  induction l with
  | nil => simp
  | cons a l ih =>
    have ha : p a = true := h a (List.mem_cons_self a l)
    simp only [List.cons_append, List.dropWhile_cons, ha, if_true]
    exact ih (fun b hb => h b (List.mem_cons_of_mem a hb))

theorem isSchemeChar_ne_colon {c : Char} (h : isSchemeChar c = true) : (c != ':') = true := by
  by_contra hne
  have : c = ':' := by
    simpa [bne, Bool.not_eq_true, beq_iff_eq] using hne
  subst this
  simp [isSchemeChar] at h

theorem hasSchemeL_append_colon (sc rest : List Char) (h : schemeOk sc = true) :
    hasSchemeL (sc ++ ':' :: rest) = true := by
  have hall : ∀ c ∈ sc, (c != ':') = true := by
    intro c hc
    have hok := h
    simp only [schemeOk, Bool.and_eq_true] at hok
    exact isSchemeChar_ne_colon (by
      have := hok.2
      exact (List.all_eq_true.mp this) c hc)
  unfold hasSchemeL
  rw [takeWhileAppend _ _ _ hall, dropWhileAppend _ _ _ hall]
  simp [List.takeWhile, List.dropWhile, h]

theorem hasSchemeL_resolveRel (sc r url : List Char) (h : schemeOk sc = true) :
    hasSchemeL (resolveRel sc r url) = true := by
  unfold resolveRel
  split
  · exact hasSchemeL_append_colon _ _ h
  · split
    · exact hasSchemeL_append_colon _ _ h
    · exact hasSchemeL_append_colon _ _ h

theorem hasSchemeL_urljoinL (base url : List Char) (h : hasSchemeL base = true) :
    hasSchemeL (urljoinL base url) = true := by
  have hok : schemeOk (base.takeWhile (fun c => c != ':')) = true := by
    have h2 := h
    unfold hasSchemeL at h2
    simp only [Bool.and_eq_true] at h2
    exact h2.1
  unfold urljoinL
  split
  · exact h
  · split
    · assumption
    · exact hasSchemeL_resolveRel _ _ _ hok

theorem hasScheme_urljoin (base url : String) (h : hasScheme base = true) :
    hasScheme (urljoin base url) = true :=
  hasSchemeL_urljoinL base.data url.data h

theorem hasScheme_EDG_BASE : hasScheme EDG_BASE = true := rfl

mutual
theorem findAllN_sat (p : Node → Bool) : ∀ n : Node, (findAllN p n).all p = true
  | Node.text s => by
      simp only [findAllN]
      split <;> simp_all
  | Node.elem t a cs => by
      simp only [findAllN, List.all_append, Bool.and_eq_true]
      refine ⟨?_, findAllL_sat p cs⟩
      split <;> simp_all
theorem findAllL_sat (p : Node → Bool) : ∀ l : NodeList, (findAllL p l).all p = true
  | NodeList.nil => by simp [findAllL]
  | NodeList.cons n ns => by
      simp only [findAllL, List.all_append, Bool.and_eq_true]
      exact ⟨findAllN_sat p n, findAllL_sat p ns⟩
end

theorem mem_findAllL_sat {p : Node → Bool} {l : NodeList} {x : Node}
    (hx : x ∈ findAllL p l) : p x = true :=
  (List.all_eq_true.mp (findAllL_sat p l)) x hx

/-- `flatMap` only depends on the function's values on members. -/
theorem flatMapCongrMem {α β} (l : List α) (f g : α → List β)
    (h : ∀ a ∈ l, f a = g a) : l.flatMap f = l.flatMap g := by
  induction l with
  | nil => rfl
  | cons a l ih =>
    simp only [List.flatMap_cons]
    rw [h a (List.mem_cons_self a l), ih (fun b hb => h b (List.mem_cons_of_mem a hb))]

theorem filterMap_eq_flatMap_toList {α β} (l : List α) (f : α → Option β) :
    l.filterMap f = l.flatMap (fun a => (f a).toList) := by
  induction l with
  | nil => rfl
  | cons a l ih =>
    cases h : f a <;> simp [List.filterMap_cons, List.flatMap_cons, h, ih]

theorem insertDesc_of_key {α} (key : α → Bool) (x : α) (l : List α) (hx : key x = true) :
    insertDesc key x l = x :: l := by
  cases l <;> simp [insertDesc, hx]

theorem insertDesc_of_not_key {α} (key : α → Bool) (x : α) (ts fs : List α)
    (hx : key x = false) (ht : ∀ a ∈ ts, key a = true) (hf : ∀ a ∈ fs, key a = false) :
    insertDesc key x (ts ++ fs) = ts ++ x :: fs := by
  induction ts with
  | nil =>
    cases fs with
    | nil => simp [insertDesc]
    | cons f fs2 =>
      have hff : key f = false := hf f (List.mem_cons_self f fs2)
      simp [insertDesc, hx, hff]
  | cons t ts2 ih =>
    have htt : key t = true := ht t (List.mem_cons_self t ts2)
    simp only [List.cons_append, insertDesc, hx, htt, Bool.not_true, Bool.or_false,
      if_neg (by simp : ¬(false = true))]
    exact congrArg (t :: ·) (ih (fun a ha => ht a (List.mem_cons_of_mem t ha)))

/-- Python's stable sort with a boolean key and `reverse=True` is exactly
the stable partition: `true`-keyed elements first, each side in the
original order. -/
theorem pySortDesc_partition {α} (key : α → Bool) (l : List α) :
    pySortDesc key l = l.filter key ++ l.filter (fun a => !key a) := by
  induction l with
  | nil => rfl
  | cons x xs ih =>
    cases hx : key x with
    | true =>
      rw [pySortDesc, ih, insertDesc_of_key key x _ hx]
      simp [List.filter_cons, hx]
    | false =>
      rw [pySortDesc, ih,
        insertDesc_of_not_key key x _ _ hx
          (fun a ha => (List.mem_filter.mp ha).2)
          (fun a ha => by simpa using (List.mem_filter.mp ha).2)]
      simp [List.filter_cons, hx]

theorem candResult_length (fetch : Fetch) (a : Node) : (candResult fetch a).1.length ≤ 1 := by
  unfold candResult
  cases extractCandidate a with
  | none => simp
  | some th =>
    cases th with
    | mk t href =>
      dsimp only
      cases fetch (urljoin EDG_BASE href) with
      | ok v => dsimp only; split <;> simp
      | error e => simp

theorem candResult_absolute (fetch : Fetch) (a : Node) :
    ∀ g ∈ (candResult fetch a).1, hasScheme g.url = true := by
  unfold candResult
  cases extractCandidate a with
  | none => simp
  | some th =>
    cases th with
    | mk t href =>
      dsimp only
      cases fetch (urljoin EDG_BASE href) with
      | ok v =>
        dsimp only
        split
        · intro g hg
          simp only [List.mem_singleton] at hg
          subst hg
          exact hasScheme_urljoin EDG_BASE href hasScheme_EDG_BASE
        · simp
      | error e => simp

theorem searchLoop_length (fetch : Fetch) : ∀ l : List Node,
    (searchLoop fetch l).1.length ≤ l.length
  | [] => by simp [searchLoop]
  | a :: rest => by
    simp only [searchLoop, List.length_append, List.length_cons]
    have h1 := candResult_length fetch a
    have h2 := searchLoop_length fetch rest
    omega

theorem searchLoop_absolute (fetch : Fetch) : ∀ l : List Node,
    ∀ g ∈ (searchLoop fetch l).1, hasScheme g.url = true
  | [] => by simp [searchLoop]
  | a :: rest => by
    intro g hg
    simp only [searchLoop, List.mem_append] at hg
    cases hg with
    | inl h => exact candResult_absolute fetch a g h
    | inr h => exact searchLoop_absolute fetch rest g h

theorem probeContent_eq_specFirst (doc : NodeList) : ∀ sels,
    probeContent doc sels =
      (sels.filterMap (fun sel =>
        match selectOne sel doc with
        | some el => if truthy el then some el else none
        | none => none)).head?
  | [] => rfl
  | sel :: rest => by
    simp only [probeContent, List.filterMap_cons]
    cases hsel : selectOne sel doc with
    | none =>
      simpa [optTruthy, hsel] using probeContent_eq_specFirst doc rest
    | some el =>
      cases htr : truthy el with
      | true => simp [hsel, optTruthy, htr]
      | false =>
        simpa [hsel, optTruthy, htr] using probeContent_eq_specFirst doc rest

/-! ## Claim theorems -/

/-- Claim C2: the extractor's body content is the text of the first
non-empty selector probe — probing `div.entry-content`, `article`,
`div.content`, `main`, `div.post-content` in order and taking the first
probe whose match is non-empty (has content) — with `script`/`style`
nodes stripped first and the visible text joined with newline separators;
and when no selector matches anything, the content is the empty string
(the extractor is a total function, so it cannot raise). -/
theorem C2_content_first_nonempty_probe (doc : NodeList) :
    (contentOf doc =
      match specFirstContentProbe doc with
      | some el => getText "\n" true (stripTagsN ["script", "style"] el)
      | none => "") ∧
    ((∀ sel ∈ contentSelectors, selectOne sel doc = none) → contentOf doc = "") := by
  have hmain : contentOf doc =
      match specFirstContentProbe doc with
      | some el => getText "\n" true (stripTagsN ["script", "style"] el)
      | none => "" := by
    unfold contentOf specFirstContentProbe
    rw [probeContent_eq_specFirst doc contentSelectors]
  refine ⟨hmain, fun h => ?_⟩
  rw [hmain]
  have hnil : (contentSelectors.filterMap (fun sel =>
      match selectOne sel doc with
      | some el => if truthy el then some el else none
      | none => none)) = [] := by
    rw [List.filterMap_eq_nil_iff]
    intro sel hsel
    rw [h sel hsel]
  unfold specFirstContentProbe
  rw [hnil]
  rfl

/-- Witness for C2 at a concrete page lacking all probed selectors. -/
theorem C2_content_witness : contentOf docNoSelectors = "" :=
  (C2_content_first_nonempty_probe docNoSelectors).2
    (by intro sel hsel; fin_cases hsel <;> rfl)

/-- Claim C3: the relevance sort of `handle_search` is the stable
partition — every summary whose title contains the query substring
case-insensitively precedes every summary whose title does not, each side
keeping its original relative order — and the sorted list is then
truncated to `limit`. -/
theorem C3_sort_stable_partition (q : String) (gs : List GuideSummary) (limit : Nat) :
    rankGuides q gs =
      gs.filter (matchesQuery q) ++ gs.filter (fun g => !matchesQuery q g) ∧
    (rankGuides q gs).take limit =
      (gs.filter (matchesQuery q) ++ gs.filter (fun g => !matchesQuery q g)).take limit := by
  have h : rankGuides q gs =
      gs.filter (matchesQuery q) ++ gs.filter (fun g => !matchesQuery q g) := by
    unfold rankGuides
    exact pySortDesc_partition (matchesQuery q) gs
  exact ⟨h, by rw [h]⟩

/-- Claim C7: `get_guide` fails with the missing-argument error when
`url` is absent, and with the unsupported-source error when the (present,
non-empty) `url` does not contain the base-URL substring; in both cases
zero network fetches are performed; in every other case the operation
returns a block sequence rather than raising. -/
theorem C7_get_guide_validation (fetch : Fetch) (args : ToolArgs) :
    (args.url = none →
      dispatch fetch "get_guide" args =
        (Except.error (PyErr.valueError "URL parameter is required"), 0)) ∧
    (∀ u, args.url = some u → u ≠ "" → strContains u EDG_BASE = false →
      dispatch fetch "get_guide" args =
        (Except.error (PyErr.valueError "URL must be from easydrawingguides.com"), 0)) ∧
    (∀ u, args.url = some u → u ≠ "" → strContains u EDG_BASE = true →
      ∃ blocks, (dispatch fetch "get_guide" args).1 = Except.ok blocks) := by
  have hd : dispatch fetch "get_guide" args = handleGetGuide fetch args := rfl
  refine ⟨fun h => ?_, fun u hu hne hcon => ?_, fun u hu hne hcon => ?_⟩
  · rw [hd]
    unfold handleGetGuide
    rw [h]
    rfl
  · have hbeq : (u == "") = false := beq_eq_false_iff_ne.mpr hne
    rw [hd]
    unfold handleGetGuide
    rw [hu]
    simp [strFalsy, hbeq, hcon]
  · have hbeq : (u == "") = false := beq_eq_false_iff_ne.mpr hne
    rw [hd]
    unfold handleGetGuide
    rw [hu]
    simp [strFalsy, hbeq, hcon]

/-- Witness for C7: the three validation outcomes at concrete calls, all
under a network that would fail if contacted. -/
theorem C7_get_guide_validation_witness :
    dispatch fetchDown "get_guide" {} =
        (Except.error (PyErr.valueError "URL parameter is required"), 0) ∧
      dispatch fetchDown "get_guide" { url := some "https://example.com/x" } =
        (Except.error (PyErr.valueError "URL must be from easydrawingguides.com"), 0) ∧
      ∃ blocks, (dispatch fetchDown "get_guide"
          { url := some "https://easydrawingguides.com/cat" }).1 = Except.ok blocks :=
  ⟨(C7_get_guide_validation fetchDown {}).1 rfl,
   (C7_get_guide_validation fetchDown _).2.1 "https://example.com/x" rfl
     (by decide) (by decide),
   (C7_get_guide_validation fetchDown _).2.2 "https://easydrawingguides.com/cat" rfl
     (by decide) (by decide)⟩

/-- Claim C8: whenever the fetch inside `get_drawing_guide_content`
raises, the exception is caught and a degraded detail is returned — title
`"Error"`, empty steps and images, and a human-readable failure message
as content; the extractor itself is a total function and never raises. -/
theorem C8_degraded_on_fetch_error (fetch : Fetch) (url e : String)
    (h : fetch url = Except.error e) :
    getContent fetch url =
      ({ title := "Error", url := url, content := "Failed to extract content: " ++ e,
         steps := [], images := [], source := "Unknown" }, 1) := by
  unfold getContent
  rw [h]

/-- Witness for C8 at a concrete failing fetch. -/
theorem C8_degraded_witness :
    getContent fetchDown "https://easydrawingguides.com/x" =
      ({ title := "Error", url := "https://easydrawingguides.com/x",
         content := "Failed to extract content: connection refused",
         steps := [], images := [], source := "Unknown" }, 1) :=
  C8_degraded_on_fetch_error fetchDown "https://easydrawingguides.com/x"
    "connection refused" rfl

/-- Claim C10: an argument present but equal to the empty string is
treated as absent — `search` with `query = ""` and `get_guide` with
`url = ""` both raise the corresponding missing-argument error with zero
network fetches performed, because the checks test falsiness. -/
theorem C10_empty_string_args (fetch : Fetch) (a b : ToolArgs)
    (hq : a.query = some "") (hu : b.url = some "") :
    dispatch fetch "search" a =
        (Except.error (PyErr.valueError "Query parameter is required"), 0) ∧
      dispatch fetch "get_guide" b =
        (Except.error (PyErr.valueError "URL parameter is required"), 0) := by
  constructor
  · have hd : dispatch fetch "search" a = handleSearch fetch a := rfl
    rw [hd]
    unfold handleSearch
    rw [hq]
    rfl
  · have hd : dispatch fetch "get_guide" b = handleGetGuide fetch b := rfl
    rw [hd]
    unfold handleGetGuide
    rw [hu]
    rfl

/-- Witness for C10 at concrete empty-string arguments. -/
theorem C10_empty_string_args_witness :
    dispatch fetchDown "search" { query := some "" } =
        (Except.error (PyErr.valueError "Query parameter is required"), 0) ∧
      dispatch fetchDown "get_guide" { url := some "" } =
        (Except.error (PyErr.valueError "URL parameter is required"), 0) :=
  C10_empty_string_args fetchDown { query := some "" } { url := some "" } rfl rfl

/-- Claim C9 counterexample: on a page whose first heading element exists
but is empty, the code falls through to the document title (an empty bs4
tag is falsy, so `soup.find('h1') or soup.find('title')` skips it), while
the claim as stated — the trimmed text of the first heading *when one
exists* — requires the empty string here. -/
theorem C9_counterexample :
    titleOf docEmptyH1 = "Doc Title" ∧
      specTitleClaim docEmptyH1 = "" ∧
      titleOf docEmptyH1 ≠ specTitleClaim docEmptyH1 :=
  ⟨by decide, by decide, by decide⟩

/-- Claim C9 amended: the title is the trimmed text of the first `h1`
when one exists **and has content**, otherwise the trimmed document title
when it exists and has content, otherwise the literal `"Unknown Title"`
(an element with no children is skipped, by bs4 truthiness). -/
theorem C9_amended_title_cascade (doc : NodeList) : titleOf doc = specTitleAmended doc := by
  unfold titleOf specTitleAmended specTitleFallback pyOr
  cases h1 : findL (isTag "h1") doc with
  | none =>
    simp only [optTruthy]
    cases h2 : findL (isTag "title") doc with
    | none => rfl
    | some t => cases ht : truthy t <;> simp [optTruthy, ht]
  | some h =>
    cases hh : truthy h with
    | true => simp [optTruthy, hh]
    | false => simp [optTruthy, hh]

/-- Claim C5 counterexample: with no list elements present, the fallback
tier of the code scans only `div` elements
(`soup.find_all('div', class_=re.compile(r'step', re.I))`), so a long
step text inside a class-matching `section` element is dropped, while
the claim as stated — "elements whose class name matches" — includes
it. -/
theorem C5_counterexample :
    stepsOf docSectionSteps = [] ∧
      specStepsClaim docSectionSteps = ["Follow these twelve steps"] ∧
      stepsOf docSectionSteps ≠ specStepsClaim docSectionSteps :=
  ⟨by decide, by decide, by decide⟩

/-- Claim C5 amended: steps are computed in two tiers — when any `ol`/`ul`
element exists, exactly the trimmed texts of list items longer than
10 characters, in document order; only when no list element exists, the
fallback over **div** elements whose class name matches the
case-insensitive `step` pattern, each contributing its whole trimmed text
under the same length filter (so every candidate of length ≤ 10 is
excluded). -/
theorem C5_amended_steps_two_tier (doc : NodeList) : stepsOf doc = specStepsDiv doc := by
  unfold stepsOf specStepsDiv stepSources
  by_cases hl : (findAllL isListTag doc).isEmpty
  · rw [if_pos hl, if_pos hl, filterMap_eq_flatMap_toList]
    refine flatMapCongrMem _ _ _ (fun a ha => ?_)
    have hp := mem_findAllL_sat ha
    simp only [Bool.and_eq_true] at hp
    have hdiv : isListTag a = false := by
      cases a with
      | text s => rfl
      | elem t at2 cs =>
        have : t = "div" := by simpa [isTag] using hp.1
        subst this
        rfl
    rw [if_neg (by simp [hdiv])]
    cases stepItemText a <;> rfl
  · rw [if_neg hl, if_neg hl]
    refine flatMapCongrMem _ _ _ (fun a ha => ?_)
    have hp := mem_findAllL_sat ha
    rw [if_pos hp]

/-- Claim C6 counterexample: an image whose `src` attribute is present
but empty is skipped by the code (`if src:` tests truthiness), while the
claim as stated — image elements *that have a `src` attribute* — keeps it
(resolving the empty reference to the page URL itself). -/
theorem C6_counterexample :
    imagesOf "https://easydrawingguides.com/p" docEmptySrc = [] ∧
      specImagesClaim "https://easydrawingguides.com/p" docEmptySrc =
        [{ src := "https://easydrawingguides.com/p", alt := "" }] ∧
      imagesOf "https://easydrawingguides.com/p" docEmptySrc ≠
        specImagesClaim "https://easydrawingguides.com/p" docEmptySrc :=
  ⟨by decide, by decide, by decide⟩

/-- Claim C6 amended: the images sequence consists of the first (at most
five, in document order) image elements whose `src` attribute is present
and **non-empty**, each `src` resolved against the source page's URL —
absolute whenever that page URL is itself absolute — and each alt text
defaulted to the empty string when absent. -/
theorem C6_amended_images_contract (pageUrl : String) (doc : NodeList) :
    imagesOf pageUrl doc = specImagesAmended pageUrl doc ∧
      (imagesOf pageUrl doc).length ≤ 5 ∧
      (hasScheme pageUrl = true →
        ∀ i ∈ imagesOf pageUrl doc, hasScheme i.src = true) := by
  refine ⟨?_, ?_, ?_⟩
  · unfold imagesOf specImagesAmended
    congr 1
    induction findAllL (isTag "img") doc with
    | nil => rfl
    | cons a l ih =>
      simp only [List.filterMap_cons, List.filter_cons]
      cases ha : attr a "src" with
      | none => simpa [ha] using ih
      | some src =>
        by_cases hs : src = ""
        · subst hs
          simpa [ha] using ih
        · have hbne : (src != "") = true := by simpa [bne] using hs
          simp only [ha, Option.getD_some, hbne, if_true, if_pos]
          rw [List.map_cons, ih]
          simp [ha]
  · unfold imagesOf
    rw [List.length_take]
    exact min_le_left _ _
  · intro habs i hi
    unfold imagesOf at hi
    have hi2 := List.mem_of_mem_take hi
    obtain ⟨a, -, hfa⟩ := List.mem_filterMap.mp hi2
    cases ha : attr a "src" with
    | none =>
      rw [ha] at hfa
      simp at hfa
    | some src =>
      rw [ha] at hfa
      dsimp only at hfa
      by_cases hs : src = ""
      · subst hs
        simp at hfa
      · have hbne : (src != "") = true := by simpa [bne] using hs
        rw [if_pos hbne] at hfa
        cases Option.some.inj hfa
        exact hasScheme_urljoin pageUrl src habs

/-- Witness for C6 at a concrete page with one absolute image. -/
theorem C6_amended_witness :
    imagesOf "https://easydrawingguides.com/p" docOneImg =
        specImagesAmended "https://easydrawingguides.com/p" docOneImg ∧
      hasScheme "https://easydrawingguides.com/i.png" = true :=
  ⟨(C6_amended_images_contract "https://easydrawingguides.com/p" docOneImg).1,
   (C6_amended_images_contract "https://easydrawingguides.com/p" docOneImg).2.2
     (by decide)
     { src := "https://easydrawingguides.com/i.png", alt := "a cat" }
     (by decide)⟩

/-- Claim C4 counterexample: a candidate whose link contains only an
image yields a summary whose title is the empty string (the code never
checks the extracted title for non-emptiness), refuting "every returned
summary has … a non-empty title". -/
theorem C4_counterexample :
    (searchEDG fetchImgLink "cat" 10).1 =
      [{ title := "", url := "https://easydrawingguides.com/pic",
         source := "Easy Drawing Guides" }] ∧
      ¬ (∀ g ∈ (searchEDG fetchImgLink "cat" 10).1, g.title ≠ "") :=
  ⟨by decide, by decide⟩

/-- Claim C4 amended: for every query and limit, the search collector
returns at most `limit` summaries, each with an absolute URL (resolved
against the site base URL); the title is the link's stripped text, which
may be empty. -/
theorem C4_amended_search_contract (fetch : Fetch) (q : String) (limit : Nat) :
    (searchEDG fetch q limit).1.length ≤ limit ∧
      ∀ g ∈ (searchEDG fetch q limit).1, hasScheme g.url = true := by
  unfold searchEDG
  cases hf : fetch (searchUrlFor q) with
  | error e => simp
  | ok resp =>
    dsimp only
    refine ⟨?_, ?_⟩
    · refine le_trans (searchLoop_length fetch _) ?_
      rw [List.length_take]
      exact min_le_left _ _
    · exact searchLoop_absolute fetch _

/-- Witness for C4 at the concrete image-link fixture. -/
theorem C4_amended_witness :
    (searchEDG fetchImgLink "cat" 10).1.length ≤ 10 ∧
      hasScheme "https://easydrawingguides.com/pic" = true :=
  ⟨(C4_amended_search_contract fetchImgLink "cat" 10).1,
   (C4_amended_search_contract fetchImgLink "cat" 10).2
     { title := "", url := "https://easydrawingguides.com/pic",
       source := "Easy Drawing Guides" }
     (by decide)⟩

/-- Claim C1 counterexample: on the five-candidate fixture with limit 3,
when the candidate that fails validation is among the first 3, the code
returns only 2 summaries — the loop slices `articles[:limit]` *before*
validating, so a failed validation inside the prefix does reduce the
result count below the cap even though 4 validated candidates exist; the
claim's expected result (the validated candidates capped at 3) is not
returned. -/
theorem C1_counterexample :
    (searchEDG (fetchCatBad "https://easydrawingguides.com/cat-1") "cat" 3).1 =
      [{ title := "Cat Two", url := "https://easydrawingguides.com/cat-2",
         source := "Easy Drawing Guides" },
       { title := "Cat Three", url := "https://easydrawingguides.com/cat-3",
         source := "Easy Drawing Guides" }] ∧
      (searchEDG (fetchCatBad "https://easydrawingguides.com/cat-1") "cat" 3).1.length < 3 ∧
      (searchEDG (fetchCatBad "https://easydrawingguides.com/cat-1") "cat" 3).1 ≠
        [{ title := "Cat Two", url := "https://easydrawingguides.com/cat-2",
           source := "Easy Drawing Guides" },
         { title := "Cat Three", url := "https://easydrawingguides.com/cat-3",
           source := "Easy Drawing Guides" },
         { title := "Cat Four", url := "https://easydrawingguides.com/cat-4",
           source := "Easy Drawing Guides" }] :=
  ⟨by decide, by decide, by decide⟩

/-- Claim C1 amended: on the five-candidate fixture with limit 3 and
exactly one candidate failing validation, the result is exactly the
validated candidates **among the first 3** — so a failing candidate
inside the prefix reduces the count (positions 1–3), while a failing
candidate outside it (positions 4–5) leaves the full first 3. Stated for
every position of the failing candidate. -/
theorem C1_amended_validation_within_prefix :
    ∀ k : Fin 5,
      (searchEDG (fetchCatBad (catUrls.getD k.val "")) "cat" 3).1 =
        (catSummaries.take 3).filter (fun s => s.url != catUrls.getD k.val "") := by
  decide
